import Mathlib

/-!
Shallow embedding of the per-tick metric pipeline of
`src/ixr_flow/gui/ixrdashboard.py` (class `IXRDashboard`, method `_update`),
together with theorems checking the specification's claims about it.

Signal values are modelled as real numbers.  External collaborators
(the BrainFlow sample source, the scipy/BrainFlow DSP filters and the
Welch PSD / band-power estimator, and the LSL/plot sinks) are modelled as
opaque inputs of a tick: the fetched windows, a per-channel filter
function and a band-power function are supplied in `TickInput`, and the
values pushed to the sinks are returned in `Publication`.

Computations of `_update` that are dead with respect to every published
output (the line-power ratio of the bad-channel detector, the
`frontal_theta` / `parietal_alpha` accumulators, the PPG filtering that
only feeds a display curve, and the plot `setData` calls) are omitted.
-/

namespace IXR

/-- The function `np.mean` of a one-dimensional array: sum divided by length.
On an empty array the real-division-by-zero convention yields 0,
standing in for numpy's NaN (both compare false against any threshold). -/
noncomputable def npMean (xs : List ℝ) : ℝ := xs.sum / xs.length

/-- The function `np.var`: population variance, mean squared deviation from the mean. -/
noncomputable def npVar (xs : List ℝ) : ℝ :=
  ((xs.map (fun x => (x - npMean xs) ^ 2)).sum) / xs.length

/-- The function `np.std`: square root of the population variance. -/
noncomputable def npStd (xs : List ℝ) : ℝ := Real.sqrt (npVar xs)

/-- The function `np.clip(x, lo, hi) = np.minimum(hi, np.maximum(lo, x))`. -/
noncomputable def npClip (x lo hi : ℝ) : ℝ := min hi (max lo x)

/-- Python `int(x)`: truncation toward zero. -/
noncomputable def pyInt (x : ℝ) : ℤ := if 0 ≤ x then ⌊x⌋ else ⌈x⌉

/-- Python `xs[-n:]` for a nonnegative bound `n`: the last `n` elements,
except that `n = 0` (Python `-0 = 0`) gives the whole list. -/
def pyLastSlice (n : ℕ) (xs : List α) : List α :=
  if n = 0 then xs else xs.drop (xs.length - n)

/-- The `Channel` dataclass of `ixrdashboard.py`. -/
structure Channel where
  ch_number : ℕ
  name : String
  reference : Bool
  display : Bool
deriving DecidableEq, Repr

/-- Five EEG band values (delta, theta, alpha, beta, gamma); used both for
the per-channel band powers and for their running sums (`avg_bands`). -/
structure BandPowers where
  delta : ℝ
  theta : ℝ
  alpha : ℝ
  beta : ℝ
  gamma : ℝ

/-- Dashboard configuration fixed at construction / `set_parameters` time. -/
structure Config where
  reference : String                 -- 'mean' or 'ref'
  eeg_channels : List Channel
  eeg_sampling_rate : ℕ
  gyro_sampling_rate : ℕ
  psd_size : ℕ
  calib_length : ℕ
  hist_length : ℕ
  brain_scale : ℝ
  brain_center : ℝ
  head_impact : ℝ

/-- The tick period `update_speed_ms`. -/
def update_speed_ms : ℕ := 100

/-- From `set_parameters`: `calib_length = int(calib_length * 1000 / update_speed_ms)`. -/
def calibLengthOf (calib_seconds : ℕ) : ℕ := calib_seconds * 1000 / update_speed_ms

/-- From `set_parameters`: `hist_length = int(power_length * 1000 / update_speed_ms)`. -/
def histLengthOf (power_seconds : ℕ) : ℕ := power_seconds * 1000 / update_speed_ms

/-- The slice bound `int(power_metric_window_s * rate)` with `power_metric_window_s = 1.5`. -/
def pmWindowSamples (rate : ℕ) : ℕ := 3 * rate / 2

/-- The mutable per-tick state of `IXRDashboard` that survives across ticks. -/
structure DashState where
  engagement_calib : List ℝ
  engagement_hist : List ℝ
  engagement : ℝ
  power_metrics : ℝ

/-- The state set up by `__init__`: both histories seeded with `[0, 1]`. -/
noncomputable def initState : DashState :=
  { engagement_calib := [0, 1], engagement_hist := [0, 1],
    engagement := 0, power_metrics := 0 }

/-- A BrainFlow exception, identified by its exit code. -/
structure BrainFlowErr where
  exit_code : ℕ
deriving DecidableEq, Repr

/-- The code `BrainFlowExitCodes.INVALID_ARGUMENTS_ERROR`, the one exit code
`_update` treats as transient. -/
def INVALID_ARGUMENTS_ERROR : ℕ := 13

/-- Everything the outside world supplies to one `_update` call:
whether the board is prepared, the result of the three
`get_current_board_data` pulls (EEG matrix, gyro matrix, first PPG row),
the composite per-channel EEG conditioning
(`detrend` + `perform_bandpass` + `perform_bandstop`), and the Welch
PSD / band-power estimation applied to a conditioned window slice. -/
structure TickInput where
  prepared : Bool
  fetch : Except BrainFlowErr (List (List ℝ) × List (List ℝ) × List ℝ)
  filt : List ℝ → List ℝ
  bands : List ℝ → BandPowers

/-- What one completed tick pushes to the sinks: the `power_metrics`
scalar (LSL outlet and power bar) and the five `avg_bands` integers
(band bar). -/
structure Publication where
  power_metric : ℝ
  bands : List ℤ

/-- Variance statistic of the bad-channel detector for one channel:
`np.var` of the trailing power-metric-window slice of the channel's raw
(unconditioned, un-rereferenced) samples. -/
noncomputable def channelVariance (cfg : Config) (eeg : List (List ℝ)) (ch : Channel) : ℝ :=
  npVar (pyLastSlice (pmWindowSamples cfg.eeg_sampling_rate) (eeg.getD ch.ch_number []))

open Classical in
/-- Bad-channel detection: every non-reference channel whose scaled
variance `np.var(window) / 500000` exceeds the threshold `0.04`.
The line-power ratio is computed by the source but never used. -/
noncomputable def badChannels (cfg : Config) (eeg : List (List ℝ)) : List Channel :=
  (cfg.eeg_channels.filter (fun ch => !ch.reference)).filter
    (fun ch => decide ((0.04 : ℝ) < channelVariance cfg eeg ch / 500000))

/-- Channel numbers of the non-reference channels. -/
def nonRefNumbers (cfg : Config) : List ℕ :=
  (cfg.eeg_channels.filter (fun ch => !ch.reference)).map Channel.ch_number

/-- Channel numbers of the reference channels. -/
def refNumbers (cfg : Config) : List ℕ :=
  (cfg.eeg_channels.filter (fun ch => ch.reference)).map Channel.ch_number

/-- Row selection `eeg_data[nums]`. -/
def selectRows (eeg : List (List ℝ)) (nums : List ℕ) : List (List ℝ) :=
  nums.map (fun n => eeg.getD n [])

/-- The row mean `np.mean(rows, axis=0)` as a function of the time index. -/
noncomputable def npMeanRows (rows : List (List ℝ)) (t : ℕ) : ℝ :=
  ((rows.map (fun r => r.getD t 0)).sum) / rows.length

/-- Re-referencing: in `mean` mode the elementwise mean of the
non-reference rows, in `ref` mode the elementwise mean of the reference
rows, is subtracted in place from every non-reference row. -/
noncomputable def rereference (cfg : Config) (eeg : List (List ℝ)) : List (List ℝ) :=
  if cfg.reference = "mean" then
    (List.range eeg.length).map (fun r =>
      if r ∈ nonRefNumbers cfg then
        (eeg.getD r []).mapIdx
          (fun t x => x - npMeanRows (selectRows eeg (nonRefNumbers cfg)) t)
      else eeg.getD r [])
  else if cfg.reference = "ref" then
    (List.range eeg.length).map (fun r =>
      if r ∈ nonRefNumbers cfg then
        (eeg.getD r []).mapIdx
          (fun t x => x - npMeanRows (selectRows eeg (refNumbers cfg)) t)
      else eeg.getD r [])
  else eeg

/-- The metric `head_movement`: the code evaluates
`np.clip(np.mean(np.abs(gyro_data[:][-n:])) / 50, 0, 1)` with
`n = int(power_metric_window_s * gyro_sampling_rate)`.  Note that
`gyro_data[:][-n:]` slices the ROW axis of the gyro matrix, so `np.abs`
and `np.mean` run over all samples of the selected rows. -/
noncomputable def head_movement (cfg : Config) (gyro : List (List ℝ)) : ℝ :=
  npClip
    (npMean (((pyLastSlice (pmWindowSamples cfg.gyro_sampling_rate) gyro).map
      (fun r => r.map (fun x => |x|))).flatten) / 50)
    0 1

/-- One step of the EEG processing loop (`for ... if ch.display`): condition
the channel's row, slice the trailing power-metric window, skip the channel
when the slice is shorter than `psd_size`, otherwise (for non-reference
channels) add its band powers to the running sums and, when the channel is
not flagged bad, add `(beta / (theta + alpha)) / gamma` to `engagement_idx`. -/
noncomputable def channelStep (cfg : Config) (inp : TickInput) (bad : List Channel)
    (eeg : List (List ℝ)) (acc : BandPowers × ℝ) (ch : Channel) : BandPowers × ℝ :=
  let filtered := inp.filt (eeg.getD ch.ch_number [])
  let sliced := pyLastSlice (pmWindowSamples cfg.eeg_sampling_rate) filtered
  if sliced.length < cfg.psd_size then acc
  else if ch.reference then acc
  else
    let b := inp.bands sliced
    let sums : BandPowers :=
      { delta := acc.1.delta + b.delta, theta := acc.1.theta + b.theta,
        alpha := acc.1.alpha + b.alpha, beta := acc.1.beta + b.beta,
        gamma := acc.1.gamma + b.gamma }
    if ch ∈ bad then (sums, acc.2)
    else (sums, acc.2 + (b.beta / (b.theta + b.alpha)) / b.gamma)

/-- The EEG processing loop over the display channels, starting from
`avg_bands = [0,0,0,0,0]` and `engagement_idx = 0`. -/
noncomputable def channelFold (cfg : Config) (inp : TickInput) (bad : List Channel)
    (eeg : List (List ℝ)) : BandPowers × ℝ :=
  (cfg.eeg_channels.filter (fun ch => ch.display)).foldl
    (channelStep cfg inp bad eeg) (⟨0, 0, 0, 0, 0⟩, 0)

/-- Final raw engagement index:
`engagement_idx / (4 - len(bad_channels))` unless all 4 are bad, then 0. -/
noncomputable def rawEngagement (nBad : ℕ) (sum : ℝ) : ℝ :=
  if nBad ≠ 4 then sum / (4 - (nBad : ℝ)) else 0

/-- The step `engagement_calib.append(idx)` followed by `del engagement_calib[0]`
when the length exceeds `calib_length`. -/
def calibAppend (calib : List ℝ) (idx : ℝ) (cap : ℕ) : List ℝ :=
  let c := calib ++ [idx]
  if cap < c.length then c.tail else c

/-- The step `del engagement_hist[0]` when the length exceeds `hist_length`
(the eviction that precedes the append of the new smoothed value). -/
def histEvict (hist : List ℝ) (cap : ℕ) : List ℝ :=
  if cap < hist.length then hist.tail else hist

/-- The z-scoring of the raw engagement index against the (just updated)
calibration history: z-score, divide by `2 * brain_scale`, add
`brain_center`, clip to `[0.05, 1]`. -/
noncomputable def engagementZ (cfg : Config) (calib : List ℝ) (idx : ℝ) : ℝ :=
  npClip ((idx - npMean calib) / npStd calib / (2 * cfg.brain_scale) + cfg.brain_center)
    0.05 1

/-- The recency-weighted accumulation loop over `engagement_hist`:
`(engagement_weighted_mean, sumweight)` after
`for count, hist_val in enumerate(engagement_hist)`. -/
noncomputable def weightedPair (hist : List ℝ) : ℝ × ℝ :=
  hist.enum.foldl (fun acc iv => (acc.1 + iv.2 * (iv.1 : ℝ), acc.2 + (iv.1 : ℝ))) (0, 0)

/-- The smoothed value `engagement_weighted_mean / sumweight`. -/
noncomputable def weightedMean (hist : List ℝ) : ℝ :=
  (weightedPair hist).1 / (weightedPair hist).2

/-- The EEG processing loop's final band sums and engagement accumulator
for one tick (bad channels from the raw matrix, band powers from the
re-referenced matrix). -/
noncomputable def tickFold (cfg : Config) (inp : TickInput) (eeg : List (List ℝ)) :
    BandPowers × ℝ :=
  channelFold cfg inp (badChannels cfg eeg) (rereference cfg eeg)

/-- The raw engagement index of one tick (`engagement_idx` after the
division at the end of the loop). -/
noncomputable def tickRawIdx (cfg : Config) (inp : TickInput) (eeg : List (List ℝ)) : ℝ :=
  rawEngagement (badChannels cfg eeg).length (tickFold cfg inp eeg).2

/-- The list `avg_bands` as published: each running band sum divided by
`len(self.eeg_channels)` (the full configured channel list, reference
channels included) and truncated by Python `int`. -/
noncomputable def tickAvgBands (cfg : Config) (inp : TickInput) (eeg : List (List ℝ)) :
    List ℤ :=
  [pyInt ((tickFold cfg inp eeg).1.delta / (cfg.eeg_channels.length : ℝ)),
   pyInt ((tickFold cfg inp eeg).1.theta / (cfg.eeg_channels.length : ℝ)),
   pyInt ((tickFold cfg inp eeg).1.alpha / (cfg.eeg_channels.length : ℝ)),
   pyInt ((tickFold cfg inp eeg).1.beta / (cfg.eeg_channels.length : ℝ)),
   pyInt ((tickFold cfg inp eeg).1.gamma / (cfg.eeg_channels.length : ℝ))]

/-- The body of `_update` after all abort checks have passed: bad-channel
detection, head movement, re-referencing, the EEG processing loop, the
final engagement division, both history updates, z-scoring, weighted-mean
smoothing and the final blended metric.  Returns the new state and the
values published to the sinks. -/
noncomputable def processTick (cfg : Config) (inp : TickInput)
    (eeg gyro : List (List ℝ)) (s : DashState) : DashState × Publication :=
  let idx := tickRawIdx cfg inp eeg
  let calib2 := calibAppend s.engagement_calib idx cfg.calib_length
  let hist2 := histEvict s.engagement_hist cfg.hist_length ++ [engagementZ cfg calib2 idx]
  let wm := weightedMean hist2
  let pm := wm + (1 - head_movement cfg gyro) * cfg.head_impact
  ({ engagement_calib := calib2, engagement_hist := hist2,
     engagement := wm, power_metrics := pm },
   { power_metric := pm, bands := tickAvgBands cfg inp eeg })

/-- One `_update` call.  Aborts (returning the state unchanged and
publishing nothing) when the board is not prepared, when the data pull
raises the transient `INVALID_ARGUMENTS_ERROR`, or when any of the three
pulled arrays has Python length `< 1`; re-raises any other BrainFlow
error; otherwise runs the pipeline body. -/
noncomputable def update (cfg : Config) (inp : TickInput) (s : DashState) :
    Except BrainFlowErr (DashState × Option Publication) :=
  if inp.prepared = false then .ok (s, none)
  else
    match inp.fetch with
    | .error e =>
        if e.exit_code = INVALID_ARGUMENTS_ERROR then .ok (s, none) else .error e
    | .ok (eeg, gyro, ppg) =>
        if eeg.length < 1 ∨ gyro.length < 1 ∨ ppg.length < 1 then .ok (s, none)
        else
          let r := processTick cfg inp eeg gyro s
          .ok (r.1, some r.2)

/-- A sequence of ticks: fold `update` over a list of tick inputs
(the state is kept unchanged when a tick raises). -/
noncomputable def runTicks (cfg : Config) (inps : List TickInput) (s : DashState) : DashState :=
  inps.foldl (fun st i =>
    match update cfg i st with
    | .ok (s2, _) => s2
    | .error _ => st) s

/-! ### General lemmas about the pipeline pieces -/

lemma calibAppend_length (calib : List ℝ) (idx : ℝ) (cap : ℕ) :
    (calibAppend calib idx cap).length =
      if cap < calib.length + 1 then calib.length else calib.length + 1 := by
  unfold calibAppend
  rw [apply_ite List.length]
  simp

lemma histEvict_length (hist : List ℝ) (cap : ℕ) :
    (histEvict hist cap).length =
      if cap < hist.length then hist.length - 1 else hist.length := by
  unfold histEvict
  rw [apply_ite List.length]
  simp

lemma processTick_fst (cfg : Config) (inp : TickInput) (eeg gyro : List (List ℝ))
    (s : DashState) :
    (processTick cfg inp eeg gyro s).1 =
      { engagement_calib :=
          calibAppend s.engagement_calib (tickRawIdx cfg inp eeg) cfg.calib_length,
        engagement_hist :=
          histEvict s.engagement_hist cfg.hist_length ++
            [engagementZ cfg
              (calibAppend s.engagement_calib (tickRawIdx cfg inp eeg) cfg.calib_length)
              (tickRawIdx cfg inp eeg)],
        engagement :=
          weightedMean (histEvict s.engagement_hist cfg.hist_length ++
            [engagementZ cfg
              (calibAppend s.engagement_calib (tickRawIdx cfg inp eeg) cfg.calib_length)
              (tickRawIdx cfg inp eeg)]),
        power_metrics :=
          weightedMean (histEvict s.engagement_hist cfg.hist_length ++
            [engagementZ cfg
              (calibAppend s.engagement_calib (tickRawIdx cfg inp eeg) cfg.calib_length)
              (tickRawIdx cfg inp eeg)]) +
            (1 - head_movement cfg gyro) * cfg.head_impact } := rfl

lemma processTick_calib (cfg : Config) (inp : TickInput) (eeg gyro : List (List ℝ))
    (s : DashState) :
    (processTick cfg inp eeg gyro s).1.engagement_calib =
      calibAppend s.engagement_calib (tickRawIdx cfg inp eeg) cfg.calib_length := rfl

lemma processTick_hist (cfg : Config) (inp : TickInput) (eeg gyro : List (List ℝ))
    (s : DashState) :
    (processTick cfg inp eeg gyro s).1.engagement_hist =
      histEvict s.engagement_hist cfg.hist_length ++
        [engagementZ cfg
          (calibAppend s.engagement_calib (tickRawIdx cfg inp eeg) cfg.calib_length)
          (tickRawIdx cfg inp eeg)] := rfl

lemma processTick_hist_length (cfg : Config) (inp : TickInput) (eeg gyro : List (List ℝ))
    (s : DashState) :
    (processTick cfg inp eeg gyro s).1.engagement_hist.length =
      (if cfg.hist_length < s.engagement_hist.length
        then s.engagement_hist.length - 1 else s.engagement_hist.length) + 1 := by
  rw [processTick_fst]
  simp [histEvict_length]

lemma processTick_calib_length (cfg : Config) (inp : TickInput) (eeg gyro : List (List ℝ))
    (s : DashState) :
    (processTick cfg inp eeg gyro s).1.engagement_calib.length =
      if cfg.calib_length < s.engagement_calib.length + 1
        then s.engagement_calib.length else s.engagement_calib.length + 1 := by
  rw [processTick_fst]
  simp [calibAppend_length]

lemma foldl_weighted_enumFrom (l : List ℝ) : ∀ (n : ℕ) (a b : ℝ),
    (List.enumFrom n l).foldl
      (fun acc iv => (acc.1 + iv.2 * (iv.1 : ℝ), acc.2 + (iv.1 : ℝ))) (a, b) =
    (a + ∑ i in Finset.range l.length, l.getD i 0 * ((n : ℝ) + i),
     b + ∑ i in Finset.range l.length, ((n : ℝ) + i)) := by
  induction l with
  | nil => intro n a b; simp
  | cons x xs ih =>
    intro n a b
    rw [List.enumFrom_cons, List.foldl_cons, ih]
    simp only [List.length_cons, Prod.mk.injEq]
    rw [Finset.sum_range_succ' (fun i => (x :: xs).getD i 0 * ((n : ℝ) + i)),
      Finset.sum_range_succ' (fun i => ((n : ℝ) + (i : ℕ)))]
    simp only [List.getD_cons_succ, List.getD_cons_zero, Nat.cast_zero, Nat.cast_add,
      Nat.cast_one]
    constructor
    · rw [Finset.sum_congr rfl (fun i hi =>
        show xs.getD i 0 * ((n : ℝ) + ((i : ℝ) + 1)) = xs.getD i 0 * (((n : ℝ) + 1) + i) by
          ring)]
      ring
    · simp only [Finset.sum_add_distrib, Finset.sum_const, Finset.card_range, nsmul_eq_mul]
      ring

lemma weightedPair_eq (h : List ℝ) :
    weightedPair h =
      (∑ i in Finset.range h.length, h.getD i 0 * (i : ℝ),
       ∑ i in Finset.range h.length, (i : ℝ)) := by
  rw [weightedPair, show h.enum = h.enumFrom 0 from rfl, foldl_weighted_enumFrom]
  simp

/-! ### Concrete configurations and tick inputs used by the counterexamples
and witnesses -/

/-- A Muse-style channel layout: four non-reference display channels from
`eeg_channels` plus the `Fpz` reference from `other_channels`
(`display_ref = False`). -/
def museChannels : List Channel :=
  [⟨1, "TP9", false, true⟩, ⟨2, "AF7", false, true⟩,
   ⟨3, "AF8", false, true⟩, ⟨4, "TP10", false, true⟩,
   ⟨5, "Fpz", true, false⟩]

/-- The default configuration: `reference='mean'`, the Muse layout, a
256 Hz EEG rate (so `psd_size = 256`), a 52 Hz gyro rate, and the default
`set_parameters` values (`calib_length = 6000`, `hist_length = 100`,
`scale = 1.5`, `offset = 0.5`, `head_impact = 0.2`). -/
noncomputable def museConfig : Config :=
  { reference := "mean", eeg_channels := museChannels,
    eeg_sampling_rate := 256, gyro_sampling_rate := 52, psd_size := 256,
    calib_length := calibLengthOf 600, hist_length := histLengthOf 10,
    brain_scale := 1.5, brain_center := 0.5, head_impact := 0.2 }

lemma museConfig_calib_length : museConfig.calib_length = 6000 := rfl

lemma museConfig_hist_length : museConfig.hist_length = 100 := rfl

/-- A minimal non-aborting tick input: board prepared, a successful fetch
whose windows are too short for any channel to reach `psd_size`, identity
conditioning and an all-zero band-power oracle. -/
noncomputable def quietInput : TickInput :=
  { prepared := true,
    fetch := .ok ([[0]], [[0]], [0]),
    filt := id,
    bands := fun _ => ⟨0, 0, 0, 0, 0⟩ }

lemma badChannels_quiet_eeg (eeg : List (List ℝ))
    (hrow : ∀ ch ∈ museChannels, eeg.getD ch.ch_number [] = []) :
    badChannels museConfig eeg = [] := by
  rw [badChannels, List.filter_eq_nil_iff]
  intro ch hch
  have hch2 : ch ∈ museChannels := List.mem_of_mem_filter hch
  rw [decide_eq_true_eq, channelVariance, hrow ch hch2]
  show ¬ (0.04 : ℝ) < npVar (pyLastSlice (pmWindowSamples 256) []) / 500000
  norm_num [pyLastSlice, pmWindowSamples, npVar, npMean]

lemma foldl_id_of_step_id {α β : Type _} (f : β → α → β) (l : List α)
    (h : ∀ a ∈ l, ∀ acc, f acc a = acc) : ∀ start, l.foldl f start = start := by
  induction l with
  | nil => intro start; rfl
  | cons c cs ih =>
      intro start
      rw [List.foldl_cons, h c (List.mem_cons_self c cs)]
      exact ih (fun a ha acc => h a (List.mem_cons_of_mem c ha) acc) start

lemma channelFold_short_rows (cfg : Config) (inp : TickInput) (bad : List Channel)
    (eeg : List (List ℝ)) (hpsd : 0 < cfg.psd_size)
    (hfilt : ∀ xs : List ℝ, (inp.filt xs).length ≤ xs.length)
    (hrow : ∀ ch ∈ cfg.eeg_channels, eeg.getD ch.ch_number [] = []) :
    channelFold cfg inp bad eeg = (⟨0, 0, 0, 0, 0⟩, 0) := by
  rw [channelFold]
  refine foldl_id_of_step_id _ _ (fun ch hch acc => ?_) _
  have hmem : ch ∈ cfg.eeg_channels := List.mem_of_mem_filter hch
  rw [channelStep]
  have hlen : (pyLastSlice (pmWindowSamples cfg.eeg_sampling_rate)
      (inp.filt (eeg.getD ch.ch_number []))).length < cfg.psd_size := by
    have h1 : (inp.filt (eeg.getD ch.ch_number [])).length ≤ 0 := by
      rw [hrow ch hmem]
      simpa using hfilt []
    have h2 : (pyLastSlice (pmWindowSamples cfg.eeg_sampling_rate)
        (inp.filt (eeg.getD ch.ch_number []))).length ≤
        (inp.filt (eeg.getD ch.ch_number [])).length := by
      rw [pyLastSlice]
      split
      · exact le_refl _
      · exact (List.length_drop _ _).le.trans (Nat.sub_le _ _)
    omega
  rw [if_pos hlen]

/-- A single-row EEG matrix is untouched by `mean` re-referencing under the
Muse layout, whose non-reference channel numbers start at 1. -/
lemma rereference_single_row (row : List ℝ) :
    rereference museConfig [row] = [row] := by
  rw [rereference, if_pos (show museConfig.reference = "mean" from rfl)]
  simp [nonRefNumbers, museConfig, museChannels, List.getD, List.range_succ]

lemma muse_rows_empty (row : List ℝ) :
    ∀ ch ∈ museChannels, ([row] : List (List ℝ)).getD ch.ch_number [] = [] := by
  intro ch hch
  fin_cases hch <;> rfl

/-- On a single-row EEG matrix with the quiet input, every channel is
skipped (its window is empty) and the raw engagement index is
`0 / (4 - 0) = 0`. -/
lemma tickRawIdx_single_row (row : List ℝ) :
    tickRawIdx museConfig quietInput [row] = 0 := by
  rw [tickRawIdx, tickFold, badChannels_quiet_eeg [row] (muse_rows_empty row),
    rereference_single_row,
    channelFold_short_rows museConfig quietInput [] [row]
      (by norm_num [museConfig]) (fun xs => le_refl _)
      (fun ch hch => muse_rows_empty row ch hch)]
  simp [rawEngagement]

/-! ### Reduction lemmas for the branches of `update` -/

lemma update_not_prepared (cfg : Config) (inp : TickInput) (s : DashState)
    (h : inp.prepared = false) :
    update cfg inp s = .ok (s, none) := by
  simp [update, h]

lemma update_transient (cfg : Config) (inp : TickInput) (s : DashState) (e : BrainFlowErr)
    (hprep : inp.prepared = true) (hfetch : inp.fetch = .error e)
    (hcode : e.exit_code = INVALID_ARGUMENTS_ERROR) :
    update cfg inp s = .ok (s, none) := by
  simp [update, hprep, hfetch, hcode]

lemma update_fatal (cfg : Config) (inp : TickInput) (s : DashState) (e : BrainFlowErr)
    (hprep : inp.prepared = true) (hfetch : inp.fetch = .error e)
    (hcode : e.exit_code ≠ INVALID_ARGUMENTS_ERROR) :
    update cfg inp s = .error e := by
  simp [update, hprep, hfetch, hcode]

lemma update_prep_fetch_ok (cfg : Config) (inp : TickInput) (s : DashState)
    (eeg gyro : List (List ℝ)) (ppg : List ℝ)
    (hprep : inp.prepared = true) (hfetch : inp.fetch = .ok (eeg, gyro, ppg)) :
    update cfg inp s =
      if eeg.length < 1 ∨ gyro.length < 1 ∨ ppg.length < 1 then .ok (s, none)
      else .ok ((processTick cfg inp eeg gyro s).1,
        some (processTick cfg inp eeg gyro s).2) := by
  unfold update
  rw [hprep, hfetch]
  rfl

lemma update_short_window (cfg : Config) (inp : TickInput) (s : DashState)
    (eeg gyro : List (List ℝ)) (ppg : List ℝ)
    (hprep : inp.prepared = true) (hfetch : inp.fetch = .ok (eeg, gyro, ppg))
    (hlt : eeg.length < 1 ∨ gyro.length < 1 ∨ ppg.length < 1) :
    update cfg inp s = .ok (s, none) := by
  rw [update_prep_fetch_ok cfg inp s eeg gyro ppg hprep hfetch, if_pos hlt]

lemma update_ok_of_proceed (cfg : Config) (inp : TickInput) (s : DashState)
    (eeg gyro : List (List ℝ)) (ppg : List ℝ)
    (hprep : inp.prepared = true) (hfetch : inp.fetch = .ok (eeg, gyro, ppg))
    (hne : ¬(eeg.length < 1 ∨ gyro.length < 1 ∨ ppg.length < 1)) :
    update cfg inp s = .ok ((processTick cfg inp eeg gyro s).1,
      some (processTick cfg inp eeg gyro s).2) := by
  rw [update_prep_fetch_ok cfg inp s eeg gyro ppg hprep hfetch, if_neg hne]

lemma update_quiet (s : DashState) :
    update museConfig quietInput s =
      .ok ((processTick museConfig quietInput [[0]] [[0]] s).1,
        some (processTick museConfig quietInput [[0]] [[0]] s).2) := by
  refine update_ok_of_proceed museConfig quietInput s [[0]] [[0]] [0] rfl rfl ?_
  norm_num

/-! ### Claim C1 -/

/-- The dashboard state after `n` ticks of the default configuration on the
quiet input, starting from the freshly constructed state. -/
noncomputable def c1Run : ℕ → DashState
  | 0 => initState
  | n + 1 =>
      match update museConfig quietInput (c1Run n) with
      | .ok (s2, _) => s2
      | .error _ => c1Run n

lemma c1Run_succ (n : ℕ) :
    c1Run (n + 1) = (processTick museConfig quietInput [[0]] [[0]] (c1Run n)).1 := by
  rw [c1Run, update_quiet]

lemma c1Run_hist_length (n : ℕ) :
    (c1Run n).engagement_hist.length = min (2 + n) 101 := by
  induction n with
  | zero => rfl
  | succ n ih =>
      rw [c1Run_succ, processTick_hist_length, ih, museConfig_hist_length]
      split <;> omega

/-- C1 is false as stated: under the default configuration
(`hist_length = 100`), after 99 quiet ticks from the freshly seeded state
the SmoothingHistory `engagement_hist` holds 101 entries — one more than
its configured capacity — because `_update` evicts from `engagement_hist`
before appending to it. -/
theorem c1_smoothing_exceeds_capacity :
    museConfig.hist_length = 100 ∧
    (c1Run 99).engagement_hist.length = 101 := by
  refine ⟨rfl, ?_⟩
  rw [c1Run_hist_length]
  norm_num

/-- C1 (amended): after any tick, CalibrationHistory never exceeds
`calib_length` provided it started within capacity, while SmoothingHistory
never exceeds `hist_length + 1` (and does reach `hist_length + 1`, see the
counterexample): the eviction happens before the append, so the bound that
the code maintains is off by one from the claimed one. -/
theorem c1_history_capacity (cfg : Config) (inp : TickInput) (s s2 : DashState)
    (p : Option Publication) (hok : update cfg inp s = .ok (s2, p))
    (hc : s.engagement_calib.length ≤ cfg.calib_length)
    (hh : s.engagement_hist.length ≤ cfg.hist_length + 1) :
    s2.engagement_calib.length ≤ cfg.calib_length ∧
    s2.engagement_hist.length ≤ cfg.hist_length + 1 := by
  rcases hb : inp.prepared with hfalse | htrue
  · rw [update_not_prepared cfg inp s hb] at hok
    obtain ⟨h1, h2⟩ := by simpa using hok
    rw [← h1]
    exact ⟨hc, hh⟩
  · rcases hf : inp.fetch with e | ⟨⟨eeg, gyro, ppg⟩⟩
    · by_cases hcode : e.exit_code = INVALID_ARGUMENTS_ERROR
      · rw [update_transient cfg inp s e hb hf hcode] at hok
        obtain ⟨h1, h2⟩ := by simpa using hok
        rw [← h1]
        exact ⟨hc, hh⟩
      · rw [update_fatal cfg inp s e hb hf hcode] at hok
        exact absurd hok (by simp)
    · by_cases hlt : eeg.length < 1 ∨ gyro.length < 1 ∨ ppg.length < 1
      · rw [update_short_window cfg inp s eeg gyro ppg hb hf hlt] at hok
        obtain ⟨h1, h2⟩ := by simpa using hok
        rw [← h1]
        exact ⟨hc, hh⟩
      · rw [update_ok_of_proceed cfg inp s eeg gyro ppg hb hf hlt] at hok
        obtain ⟨h1, h2⟩ := by simpa using hok
        rw [← h1]
        constructor
        · rw [processTick_calib_length]
          split <;> omega
        · rw [processTick_hist_length]
          split <;> omega

/-- Witness for the amended C1 at a concrete tick: the seeded initial state
is within both bounds and stays within them after one quiet tick of the
default configuration. -/
theorem c1_history_capacity_witness :
    initState.engagement_calib.length ≤ museConfig.calib_length ∧
    initState.engagement_hist.length ≤ museConfig.hist_length + 1 ∧
    ((processTick museConfig quietInput [[0]] [[0]] initState).1.engagement_calib.length ≤
        museConfig.calib_length ∧
      (processTick museConfig quietInput [[0]] [[0]] initState).1.engagement_hist.length ≤
        museConfig.hist_length + 1) :=
  ⟨by norm_num [initState, museConfig_calib_length],
   by norm_num [initState, museConfig_hist_length],
   c1_history_capacity museConfig quietInput initState
     (processTick museConfig quietInput [[0]] [[0]] initState).1
     (some (processTick museConfig quietInput [[0]] [[0]] initState).2)
     (update_quiet initState)
     (by norm_num [initState, museConfig_calib_length])
     (by norm_num [initState, museConfig_hist_length])⟩

/-! ### Claim C10 -/

lemma update_state_cases (cfg : Config) (inp : TickInput) (s s2 : DashState)
    (p : Option Publication) (hok : update cfg inp s = .ok (s2, p)) :
    s2 = s ∨ ∃ eeg gyro : List (List ℝ), s2 = (processTick cfg inp eeg gyro s).1 := by
  rcases hb : inp.prepared with _ | _
  · rw [update_not_prepared cfg inp s hb] at hok
    obtain ⟨h1, h2⟩ := by simpa using hok
    exact .inl h1.symm
  · rcases hf : inp.fetch with e | ⟨⟨eeg, gyro, ppg⟩⟩
    · by_cases hcode : e.exit_code = INVALID_ARGUMENTS_ERROR
      · rw [update_transient cfg inp s e hb hf hcode] at hok
        obtain ⟨h1, h2⟩ := by simpa using hok
        exact .inl h1.symm
      · rw [update_fatal cfg inp s e hb hf hcode] at hok
        exact absurd hok (by simp)
    · by_cases hlt : eeg.length < 1 ∨ gyro.length < 1 ∨ ppg.length < 1
      · rw [update_short_window cfg inp s eeg gyro ppg hb hf hlt] at hok
        obtain ⟨h1, h2⟩ := by simpa using hok
        exact .inl h1.symm
      · rw [update_ok_of_proceed cfg inp s eeg gyro ppg hb hf hlt] at hok
        obtain ⟨h1, h2⟩ := by simpa using hok
        exact .inr ⟨eeg, gyro, h1.symm⟩

lemma update_hist_ge_two (cfg : Config) (inp : TickInput) (s s2 : DashState)
    (p : Option Publication) (hok : update cfg inp s = .ok (s2, p))
    (h2 : 2 ≤ s.engagement_hist.length) : 2 ≤ s2.engagement_hist.length := by
  rcases update_state_cases cfg inp s s2 p hok with h | ⟨eeg, gyro, h⟩
  · rw [h]; exact h2
  · rw [h, processTick_hist_length]; split <;> omega

lemma runTicks_hist_ge_two (cfg : Config) (inps : List TickInput) :
    ∀ s : DashState, 2 ≤ s.engagement_hist.length →
      2 ≤ (runTicks cfg inps s).engagement_hist.length := by
  induction inps with
  | nil => intro s h; exact h
  | cons i is ih =>
      intro s h
      rw [runTicks, List.foldl_cons]
      have hstep : 2 ≤ (match update cfg i s with
          | .ok (s2, _) => s2
          | .error _ => s).engagement_hist.length := by
        rcases hu : update cfg i s with e | ⟨s2, p⟩
        · simpa using h
        · simpa using update_hist_ge_two cfg i s s2 p hu h
      exact ih _ hstep

lemma weightedPair_snd_ge_one (h : List ℝ) (hlen : 2 ≤ h.length) :
    1 ≤ (weightedPair h).2 := by
  rw [weightedPair_eq]
  have h1 : ∀ i ∈ Finset.range h.length, (0 : ℝ) ≤ (i : ℝ) := fun i _ => Nat.cast_nonneg i
  have h2 : (1 : ℕ) ∈ Finset.range h.length := Finset.mem_range.mpr (by omega)
  have h3 := Finset.single_le_sum h1 h2
  simpa using h3

/-- C10: from the seeded initial state, any sequence of ticks leaves
SmoothingHistory with at least 2 entries; on the next tick the history the
recency-weighted mean runs over still has at least 2 entries, and its
`sumweight` denominator is at least 1, so the smoothing division never
divides by zero. -/
theorem c10_smoothing_denominator (cfg : Config) (inps : List TickInput)
    (inp : TickInput) (eeg gyro : List (List ℝ)) :
    2 ≤ (runTicks cfg inps initState).engagement_hist.length ∧
    2 ≤ (processTick cfg inp eeg gyro
          (runTicks cfg inps initState)).1.engagement_hist.length ∧
    1 ≤ (weightedPair (processTick cfg inp eeg gyro
          (runTicks cfg inps initState)).1.engagement_hist).2 := by
  have h0 : 2 ≤ initState.engagement_hist.length := by norm_num [initState]
  have h1 := runTicks_hist_ge_two cfg inps initState h0
  have h2 : 2 ≤ (processTick cfg inp eeg gyro
      (runTicks cfg inps initState)).1.engagement_hist.length := by
    rw [processTick_hist_length]
    split <;> omega
  exact ⟨h1, h2, weightedPair_snd_ge_one _ h2⟩

/-! ### Claim C2 -/

/-- A state whose calibration history has zero variance, as reached after
6000 consecutive ticks whose raw engagement index is 0 (for instance 600
seconds of all-bad-channel or all-skipped ticks, which flush the `[0, 1]`
seed and fill `engagement_calib` with zeros). -/
noncomputable def zeroCalibState : DashState :=
  { engagement_calib := List.replicate 6000 0,
    engagement_hist := List.replicate 101 (1 / 2),
    engagement := 0, power_metrics := 0 }

lemma npStd_replicate_zero (n : ℕ) : npStd (List.replicate n (0 : ℝ)) = 0 := by
  have hm : npMean (List.replicate n (0 : ℝ)) = 0 := by
    simp [npMean, List.sum_replicate]
  have hv : npVar (List.replicate n (0 : ℝ)) = 0 := by
    simp [npVar, hm, List.map_replicate, List.sum_replicate]
  rw [npStd, hv, Real.sqrt_zero]

lemma calibAppend_replicate_zero (n : ℕ) :
    calibAppend (List.replicate (n + 1) (0 : ℝ)) 0 (n + 1) = List.replicate (n + 1) 0 := by
  rw [calibAppend]
  rw [if_pos (by simp)]
  conv_lhs => rw [List.replicate_succ]
  rw [List.cons_append, List.tail_cons, ← List.replicate_succ']

lemma c2_calib_after :
    (processTick museConfig quietInput [[0]] [[0]] zeroCalibState).1.engagement_calib =
      List.replicate 6000 (0 : ℝ) := by
  rw [processTick_calib, tickRawIdx_single_row, museConfig_calib_length]
  exact calibAppend_replicate_zero 5999

/-- C2 describes the intended design, but the code contains no such guard:
at a reachable zero-variance calibration history the standard deviation
the z-score divides by is exactly 0 (in the float implementation the
division produces NaN, which `np.clip` passes through), and the tick still
publishes to the sink instead of skipping or signalling an undefined
metric. -/
theorem c2_degenerate_statistics_unguarded :
    npStd ((processTick museConfig quietInput [[0]] [[0]]
      zeroCalibState).1.engagement_calib) = 0 ∧
    (update museConfig quietInput zeroCalibState).toOption.map
      (fun r => r.2.isSome) = some true := by
  constructor
  · rw [c2_calib_after, npStd_replicate_zero]
  · rw [update_quiet]
    rfl

/-! ### Claim C3 -/

/-- Tick input with the board not prepared. -/
noncomputable def notReadyInput : TickInput :=
  { prepared := false, fetch := .ok ([[0]], [[0]], [0]), filt := id,
    bands := fun _ => ⟨0, 0, 0, 0, 0⟩ }

/-- Tick input whose fetch raises the transient `INVALID_ARGUMENTS_ERROR`. -/
noncomputable def transientErrInput : TickInput :=
  { prepared := true, fetch := .error ⟨INVALID_ARGUMENTS_ERROR⟩, filt := id,
    bands := fun _ => ⟨0, 0, 0, 0, 0⟩ }

/-- Tick input whose fetch raises some other BrainFlow error (code 7). -/
noncomputable def fatalErrInput : TickInput :=
  { prepared := true, fetch := .error ⟨7⟩, filt := id,
    bands := fun _ => ⟨0, 0, 0, 0, 0⟩ }

/-- Tick input whose EEG pull returns a matrix with one channel row and
zero samples ([[ ]]), while the gyro and PPG pulls return data. -/
noncomputable def emptyEEGInput : TickInput :=
  { prepared := true, fetch := .ok ([[]], [[0]], [0]), filt := id,
    bands := fun _ => ⟨0, 0, 0, 0, 0⟩ }

/-- C3: the not-ready, transient-error and fatal-error legs behave as
claimed, but the empty-window leg does not: `len(...) < 1` counts channel
rows of the 2-D EEG matrix, not samples, so a sample-empty EEG window
(`[[]]`) does not abort — the tick proceeds, mutates CalibrationHistory
(length 2 becomes 3) and publishes to the sink. -/
theorem c3_abort_and_empty_window :
    update museConfig notReadyInput initState = .ok (initState, none) ∧
    update museConfig transientErrInput initState = .ok (initState, none) ∧
    update museConfig fatalErrInput initState = .error ⟨7⟩ ∧
    ([[]] : List (List ℝ)).all List.isEmpty = true ∧
    (update museConfig emptyEEGInput initState).toOption.map
      (fun r => (r.2.isSome, r.1.engagement_calib.length)) = some (true, 3) := by
  refine ⟨update_not_prepared _ _ _ rfl, update_transient _ _ _ _ rfl rfl rfl,
    update_fatal _ _ _ _ rfl rfl (by norm_num [INVALID_ARGUMENTS_ERROR]), rfl, ?_⟩
  rw [update_ok_of_proceed museConfig emptyEEGInput initState [[]] [[0]] [0]
    rfl rfl (by norm_num)]
  simp only [Except.toOption, Option.map]
  rw [processTick_calib_length]
  norm_num [initState, museConfig_calib_length]

/-! ### Claim C4 -/

/-- An EEG matrix whose four non-reference channel rows `[0, 300]` all have
scaled variance `22500 / 500000 = 0.045` above the bad-channel threshold. -/
noncomputable def noisyEEG : List (List ℝ) :=
  [[0], [0, 300], [0, 300], [0, 300], [0, 300], [0]]

lemma museNonRef_eval :
    museChannels.filter (fun ch => !ch.reference) =
      [⟨1, "TP9", false, true⟩, ⟨2, "AF7", false, true⟩,
       ⟨3, "AF8", false, true⟩, ⟨4, "TP10", false, true⟩] := rfl

lemma badChannels_noisy :
    badChannels museConfig noisyEEG = museChannels.filter (fun ch => !ch.reference) := by
  rw [badChannels]
  show (museChannels.filter (fun ch => !ch.reference)).filter _ = _
  rw [List.filter_eq_self]
  intro ch hch
  rw [decide_eq_true_eq]
  rw [museNonRef_eval] at hch
  fin_cases hch <;>
    norm_num [channelVariance, pyLastSlice, pmWindowSamples, npVar, npMean, noisyEEG,
      List.getD, museConfig]

lemma badChannels_noisy_length : (badChannels museConfig noisyEEG).length = 4 := by
  rw [badChannels_noisy]
  rfl

/-- C4: the final raw engagement index of a tick equals the accumulated
per-channel engagement sum divided by (4 minus the number of bad channels),
is exactly 0 when all 4 assumed non-reference channels are flagged bad, and
is the value appended to CalibrationHistory. -/
theorem c4_raw_engagement (cfg : Config) (inp : TickInput) (eeg gyro : List (List ℝ))
    (s : DashState) :
    ((badChannels cfg eeg).length ≠ 4 →
      tickRawIdx cfg inp eeg =
        (tickFold cfg inp eeg).2 / (4 - ((badChannels cfg eeg).length : ℝ))) ∧
    ((badChannels cfg eeg).length = 4 → tickRawIdx cfg inp eeg = 0) ∧
    (processTick cfg inp eeg gyro s).1.engagement_calib =
      calibAppend s.engagement_calib (tickRawIdx cfg inp eeg) cfg.calib_length := by
  refine ⟨fun h => ?_, fun h => ?_, processTick_calib cfg inp eeg gyro s⟩
  · rw [tickRawIdx, rawEngagement, if_pos h]
  · rw [tickRawIdx, rawEngagement, if_neg (not_not_intro h)]

/-- Witness for C4: a concrete tick where all four channels are flagged bad
(each channel window `[0, 300]` has scaled variance 0.045 > 0.04) and the
raw engagement index is exactly 0. -/
theorem c4_raw_engagement_witness :
    (badChannels museConfig noisyEEG).length = 4 ∧
    tickRawIdx museConfig quietInput noisyEEG = 0 :=
  ⟨badChannels_noisy_length,
   (c4_raw_engagement museConfig quietInput noisyEEG [[0]] initState).2.1
     badChannels_noisy_length⟩

/-! ### Claim C5 -/

/-- C5: the value appended to SmoothingHistory is exactly
`clip((raw - mean)/std/(2*scale) + center, 0.05, 1)`, computed against the
just-updated calibration history; a pre-clip value below 0.05 is reported
as exactly 0.05 and one above 1 as exactly 1. -/
theorem c5_zscore_clip (cfg : Config) (inp : TickInput) (eeg gyro : List (List ℝ))
    (s : DashState) (calib : List ℝ) (idx : ℝ) :
    ((processTick cfg inp eeg gyro s).1.engagement_hist =
      histEvict s.engagement_hist cfg.hist_length ++
        [engagementZ cfg
          (calibAppend s.engagement_calib (tickRawIdx cfg inp eeg) cfg.calib_length)
          (tickRawIdx cfg inp eeg)]) ∧
    engagementZ cfg calib idx =
      min 1 (max 0.05
        ((idx - npMean calib) / npStd calib / (2 * cfg.brain_scale) + cfg.brain_center)) ∧
    ((idx - npMean calib) / npStd calib / (2 * cfg.brain_scale) + cfg.brain_center < 0.05 →
      engagementZ cfg calib idx = 0.05) ∧
    (1 < (idx - npMean calib) / npStd calib / (2 * cfg.brain_scale) + cfg.brain_center →
      engagementZ cfg calib idx = 1) := by
  refine ⟨processTick_hist cfg inp eeg gyro s, rfl, fun h => ?_, fun h => ?_⟩
  · rw [engagementZ, npClip, max_eq_left h.le, min_eq_right (by norm_num)]
  · rw [engagementZ, npClip, max_eq_right (by linarith), min_eq_left h.le]

/-- Witness for C5: with calibration history `[1,1,1,1,0]` (mean 4/5,
std 2/5) and raw index 0 the pre-clip value is -1/6 < 0.05 and the
reported value is exactly 0.05. -/
theorem c5_zscore_clip_witness :
    (((0 : ℝ) - npMean [1, 1, 1, 1, 0]) / npStd [1, 1, 1, 1, 0] /
        (2 * museConfig.brain_scale) + museConfig.brain_center < 0.05) ∧
    engagementZ museConfig [1, 1, 1, 1, 0] 0 = 0.05 := by
  have hvar : npVar [(1 : ℝ), 1, 1, 1, 0] = 4 / 25 := by norm_num [npVar, npMean]
  have hstd : npStd [(1 : ℝ), 1, 1, 1, 0] = 2 / 5 := by
    rw [npStd, hvar, show (4 / 25 : ℝ) = (2 / 5) ^ 2 by norm_num,
      Real.sqrt_sq (by norm_num)]
  have hy : ((0 : ℝ) - npMean [1, 1, 1, 1, 0]) / npStd [1, 1, 1, 1, 0] /
      (2 * museConfig.brain_scale) + museConfig.brain_center < 0.05 := by
    rw [hstd]
    norm_num [npMean, museConfig]
  exact ⟨hy, (c5_zscore_clip museConfig quietInput [[0]] [[0]] initState
    [1, 1, 1, 1, 0] 0).2.2.1 hy⟩

/-! ### Claim C6 -/

/-- C6: the engagement output of a tick is the recency-weighted mean of the
updated SmoothingHistory; the weighted mean is Σ(value_i · i)/Σ(i) over the
0-based oldest-first index, and on `[0.2, 0.4, 0.6]` it equals `1.6/3`. -/
theorem c6_weighted_mean (cfg : Config) (inp : TickInput) (eeg gyro : List (List ℝ))
    (s : DashState) (h : List ℝ) :
    (processTick cfg inp eeg gyro s).1.engagement =
      weightedMean (processTick cfg inp eeg gyro s).1.engagement_hist ∧
    weightedMean h =
      (∑ i in Finset.range h.length, h.getD i 0 * (i : ℝ)) /
        (∑ i in Finset.range h.length, (i : ℝ)) ∧
    weightedMean [0.2, 0.4, 0.6] = 1.6 / 3 := by
  refine ⟨rfl, ?_, ?_⟩
  · rw [weightedMean, weightedPair_eq]
  · rw [weightedMean, weightedPair]
    norm_num [List.enum, List.enumFrom]

/-! ### Claim C9 -/

/-- C9: the published band powers are the five running band sums, each
divided by the total configured channel count (reference channels and
non-contributing channels included) and truncated by Python `int`, which
on the non-negative band sums is the floor. -/
theorem c9_band_average (cfg : Config) (inp : TickInput) (eeg gyro : List (List ℝ))
    (s : DashState) :
    (processTick cfg inp eeg gyro s).2.bands =
      [pyInt ((tickFold cfg inp eeg).1.delta / (cfg.eeg_channels.length : ℝ)),
       pyInt ((tickFold cfg inp eeg).1.theta / (cfg.eeg_channels.length : ℝ)),
       pyInt ((tickFold cfg inp eeg).1.alpha / (cfg.eeg_channels.length : ℝ)),
       pyInt ((tickFold cfg inp eeg).1.beta / (cfg.eeg_channels.length : ℝ)),
       pyInt ((tickFold cfg inp eeg).1.gamma / (cfg.eeg_channels.length : ℝ))] ∧
    (∀ x : ℝ, 0 ≤ x → pyInt x = ⌊x⌋) := by
  refine ⟨rfl, fun x hx => ?_⟩
  rw [pyInt, if_pos hx]

/-- Witness for C9: `int()` on the non-negative value 3.7 is its floor, 3. -/
theorem c9_band_average_witness :
    (0 : ℝ) ≤ 37 / 10 ∧ pyInt (37 / 10) = ⌊(37 / 10 : ℝ)⌋ ∧ ⌊(37 / 10 : ℝ)⌋ = 3 :=
  ⟨by norm_num,
   (c9_band_average museConfig quietInput [[0]] [[0]] initState).2 (37 / 10) (by norm_num),
   by norm_num [Int.floor_eq_iff]⟩

/-! ### Claim C7 -/

lemma getD_range_map (n : ℕ) (f : ℕ → List ℝ) (r : ℕ) (hr : r < n) :
    ((List.range n).map f).getD r [] = f r := by
  rw [List.getD_eq_getElem?_getD, List.getElem?_map, List.getElem?_range hr]
  rfl

lemma getD_out (l : List (List ℝ)) (r : ℕ) (h : l.length ≤ r) : l.getD r [] = [] := by
  rw [List.getD_eq_getElem?_getD, List.getElem?_eq_none h]
  rfl

lemma rereference_length (cfg : Config) (eeg : List (List ℝ)) :
    (rereference cfg eeg).length = eeg.length := by
  rw [rereference]
  split
  · simp
  split
  · simp
  · rfl

lemma rereference_getD_not_mem (cfg : Config) (eeg : List (List ℝ)) (r : ℕ)
    (hmem : r ∉ nonRefNumbers cfg) :
    (rereference cfg eeg).getD r [] = eeg.getD r [] := by
  by_cases hr : r < eeg.length
  · rw [rereference]
    split
    · rw [getD_range_map _ _ r hr, if_neg hmem]
    split
    · rw [getD_range_map _ _ r hr, if_neg hmem]
    · rfl
  · push_neg at hr
    rw [getD_out eeg r hr, getD_out _ r (by rw [rereference_length]; exact hr)]

lemma ref_not_in_nonRefNumbers (cfg : Config) (ch : Channel)
    (hch : ch ∈ cfg.eeg_channels) (href : ch.reference = true)
    (hnd : (cfg.eeg_channels.map Channel.ch_number).Nodup) :
    ch.ch_number ∉ nonRefNumbers cfg := by
  intro hmem
  rw [nonRefNumbers, List.mem_map] at hmem
  obtain ⟨ch2, hch2, hnum⟩ := hmem
  rw [List.mem_filter] at hch2
  have heq : ch2 = ch := List.inj_on_of_nodup_map hnd hch2.1 hch hnum
  rw [heq, href] at hch2
  simpa using hch2.2

/-- C7: a row not selected by the non-reference index list is unmodified by
re-referencing; in `mean` mode every non-reference row becomes itself minus
the elementwise mean of the non-reference rows; in `ref` mode it becomes
itself minus the elementwise mean of the reference rows; and (as long as
channel numbers are distinct) a reference channel's row is never modified
in either mode. -/
theorem c7_rereference (cfg : Config) (eeg : List (List ℝ)) (r : ℕ)
    (hr : r < eeg.length) :
    (r ∉ nonRefNumbers cfg →
      (rereference cfg eeg).getD r [] = eeg.getD r []) ∧
    (cfg.reference = "mean" → r ∈ nonRefNumbers cfg →
      (rereference cfg eeg).getD r [] =
        (eeg.getD r []).mapIdx
          (fun t x => x - npMeanRows (selectRows eeg (nonRefNumbers cfg)) t)) ∧
    (cfg.reference = "ref" → r ∈ nonRefNumbers cfg →
      (rereference cfg eeg).getD r [] =
        (eeg.getD r []).mapIdx
          (fun t x => x - npMeanRows (selectRows eeg (refNumbers cfg)) t)) ∧
    (∀ ch : Channel, ch ∈ cfg.eeg_channels → ch.reference = true →
      (cfg.eeg_channels.map Channel.ch_number).Nodup →
      (rereference cfg eeg).getD ch.ch_number [] = eeg.getD ch.ch_number []) := by
  refine ⟨fun hmem => rereference_getD_not_mem cfg eeg r hmem,
    fun hmode hmem => ?_, fun hmode hmem => ?_,
    fun ch hch href hnd =>
      rereference_getD_not_mem cfg eeg ch.ch_number
        (ref_not_in_nonRefNumbers cfg ch hch href hnd)⟩
  · rw [rereference, if_pos hmode, getD_range_map _ _ r hr, if_pos hmem]
  · rw [rereference, if_neg (by rw [hmode]; simp), if_pos hmode,
      getD_range_map _ _ r hr, if_pos hmem]

/-- A two-channel layout: channel 0 is the only non-reference channel,
channel 1 is the reference. -/
noncomputable def twoChanConfig : Config :=
  { reference := "mean",
    eeg_channels := [⟨0, "AF7", false, true⟩, ⟨1, "Fpz", true, false⟩],
    eeg_sampling_rate := 256, gyro_sampling_rate := 52, psd_size := 256,
    calib_length := 6000, hist_length := 100,
    brain_scale := 1.5, brain_center := 0.5, head_impact := 0.2 }

/-- Witness for C7 on the matrix `[[2,4],[10,20]]`: the non-reference row 0
is replaced by itself minus the non-reference mean, and the reference row 1
is left unmodified. -/
theorem c7_rereference_witness :
    (0 : ℕ) ∈ nonRefNumbers twoChanConfig ∧
    (rereference twoChanConfig [[2, 4], [10, 20]]).getD 0 [] =
      (([[2, 4], [10, 20]] : List (List ℝ)).getD 0 []).mapIdx
        (fun t x => x - npMeanRows (selectRows [[2, 4], [10, 20]]
          (nonRefNumbers twoChanConfig)) t) ∧
    (rereference twoChanConfig [[2, 4], [10, 20]]).getD 1 [] =
      ([[2, 4], [10, 20]] : List (List ℝ)).getD 1 [] := by
  have hm : (0 : ℕ) ∈ nonRefNumbers twoChanConfig := by
    rw [show nonRefNumbers twoChanConfig = [0] from rfl]
    simp
  refine ⟨hm,
    (c7_rereference twoChanConfig [[2, 4], [10, 20]] 0 (by norm_num)).2.1 rfl hm,
    (c7_rereference twoChanConfig [[2, 4], [10, 20]] 1 (by norm_num)).2.2.2
      ⟨1, "Fpz", true, false⟩ (by simp [twoChanConfig]) rfl ?_⟩
  rw [show (twoChanConfig.eeg_channels.map Channel.ch_number) = [0, 1] from rfl]
  simp

/-! ### Claim C8 -/

/-- The motion window of the C8 evaluation: three gyro rows, each holding
10 samples of value 100 followed by 78 zeros, at the 52 Hz gyro rate (the
power-metric window is then the trailing 78 samples). -/
noncomputable def c8Gyro : List (List ℝ) :=
  List.replicate 3 (List.replicate 10 100 ++ List.replicate 78 0)

/-- Modelled from the spec: spec section 4.5 step 5 says the head-movement
metric is the "mean absolute motion-channel sample value over the trailing
power-metric window, scaled by 1/50, clipped to [0,1]", the trailing
window being taken per channel along the time axis. -/
noncomputable def head_movement_spec (cfg : Config) (gyro : List (List ℝ)) : ℝ :=
  npClip
    (npMean ((gyro.map (fun r =>
        (pyLastSlice (pmWindowSamples cfg.gyro_sampling_rate) r).map
          (fun x => |x|))).flatten) / 50)
    0 1

/-- C8 fails on the code: `gyro_data[:][-n:]` slices the ROW axis, and with
n = 78 ≥ 3 rows it keeps the whole matrix, so the code averages over all
264 samples of the 3 x 88 window (result 5/22) instead of over the
trailing 78 samples per channel as the claim states (result 0). -/
theorem c8_head_movement_window :
    head_movement museConfig c8Gyro = 5 / 22 ∧
    head_movement_spec museConfig c8Gyro = 0 ∧
    (5 / 22 : ℝ) ≠ 0 := by
  have habs : (List.replicate 10 (100 : ℝ) ++ List.replicate 78 0).map (fun x => |x|) =
      List.replicate 10 (100 : ℝ) ++ List.replicate 78 0 := by
    rw [List.map_append, List.map_replicate, List.map_replicate,
      abs_of_nonneg (by norm_num : (0:ℝ) ≤ 100), abs_zero]
  refine ⟨?_, ?_, by norm_num⟩
  · rw [head_movement]
    have hslice : pyLastSlice (pmWindowSamples museConfig.gyro_sampling_rate) c8Gyro =
        c8Gyro := by
      rw [pyLastSlice, if_neg (by norm_num [pmWindowSamples, museConfig])]
      rw [show c8Gyro.length - pmWindowSamples museConfig.gyro_sampling_rate = 0 from rfl]
      rfl
    rw [hslice, show c8Gyro.map (fun r => r.map (fun x => |x|)) =
        List.replicate 3 (List.replicate 10 (100 : ℝ) ++ List.replicate 78 0) from by
      rw [c8Gyro, List.map_replicate, habs]]
    rw [npMean, List.sum_flatten, List.map_replicate, List.sum_replicate, List.sum_append,
      List.sum_replicate, List.sum_replicate, List.length_flatten, List.map_replicate,
      List.sum_replicate, List.length_append, List.length_replicate, List.length_replicate]
    rw [npClip]
    norm_num
  · rw [head_movement_spec]
    have hslice : pyLastSlice (pmWindowSamples museConfig.gyro_sampling_rate)
        (List.replicate 10 (100 : ℝ) ++ List.replicate 78 0) = List.replicate 78 0 := by
      rw [pyLastSlice, if_neg (by norm_num [pmWindowSamples, museConfig])]
      rw [List.length_append, List.length_replicate, List.length_replicate]
      rw [show (10 + 78) - pmWindowSamples museConfig.gyro_sampling_rate = 10 from rfl]
      exact List.drop_left' (List.length_replicate _ _)
    rw [c8Gyro, List.map_replicate, hslice, List.map_replicate, abs_zero]
    rw [npMean, List.sum_flatten, List.map_replicate, List.sum_replicate,
      List.sum_replicate]
    rw [npClip]
    norm_num

end IXR
